import Mathlib

/-!
# Verification of the network-log ingestion worker

Shallow embedding of the Cloudflare Worker in `src/index.ts` (request
handlers `handleUpload`, `handleGetLogs` and the validation functions
`isValidTimestamp`, `isValidNumber`, `isValidRttStats`, `isValidPingResult`,
`isValidEntry`), of the alternative "modular endpoint" worker version
(namespace `WorkerV3`, its `isValidEntry`), and of the `network_logs` table
constraints of `schema.sql` (UNIQUE timestamp, CHECK non-negativity of the
`nq_*` / `st_*` numeric columns).

JavaScript values that the validators inspect are modelled by `JAtom`
(primitives) together with per-position sum types distinguishing the
primitive case from the object case, so that quirks the code relies on are
represented faithfully: `typeof null === 'object'`, property access on
`null`/`undefined` throwing a `TypeError` (modelled as `Option.none` /
validation result `none`), the `in` operator throwing on `null`, `x ?? null`
coalescing, and D1 rejecting `undefined` bind parameters.

The host clock `Date.now()` and the host date parser `new Date(s).getTime()`
are external to the program and are passed in as explicit parameters
`now : Int` (milliseconds) and `parse : String → Option Int`
(`none` models `NaN`, i.e. an unparsable date string).
-/

/-- A JavaScript number as produced by `JSON.parse` / used by the validators:
either a finite value (modelled as a rational) or one of the non-finite
values `NaN`, `Infinity`, `-Infinity` that `isNaN` / `isFinite` reject. -/
inductive JsNum where
  | val (q : Rat)
  | nan
  | inf
  | ninf
deriving DecidableEq, Repr, Inhabited

/-- A primitive JavaScript value at a leaf position. -/
inductive JAtom where
  | jundef
  | jnull
  | jnum (n : JsNum)
  | jstr (s : String)
  | jbool (b : Bool)
deriving DecidableEq, Repr, Inhabited

/-- JavaScript nullish coalescing `x ?? null` as applied to a bound field. -/
def coalesce (a : JAtom) : JAtom :=
  match a with
  | .jundef => .jnull
  | .jnull => .jnull
  | x => x

/-- JavaScript truthiness of a primitive value. -/
def jsTruthy (a : JAtom) : Bool :=
  match a with
  | .jundef => false
  | .jnull => false
  | .jnum (.val q) => decide (q ≠ 0)
  | .jnum .nan => false
  | .jnum _ => true
  | .jstr s => decide (s ≠ "")
  | .jbool b => b

/-- `src/index.ts` `isValidTimestamp`: the parsed time must be a valid time
value (`!isNaN(date.getTime())`, i.e. `parse` returns `some`) and lie in
`[now - 365 days, now + 1 hour]` (milliseconds, both bounds inclusive). -/
def isValidTimestamp (parse : String → Option Int) (now : Int)
    (timestamp : String) : Bool :=
  match parse timestamp with
  | none => false
  | some t =>
      decide (now - 365 * 24 * 60 * 60 * 1000 ≤ t) &&
      decide (t ≤ now + 60 * 60 * 1000)

/-- `src/index.ts` `isValidNumber(value, min?, max?)`: `value` must be a
number, not `NaN`, finite, and within the optional bounds. -/
def isValidNumber (value : JAtom) (min max : Option Rat) : Bool :=
  match value with
  | .jnum (.val q) =>
      (match min with | some m => decide (m ≤ q) | none => true) &&
      (match max with | some m => decide (q ≤ m) | none => true)
  | _ => false

/-- The `{download_mbps, upload_mbps, responsiveness_rpm}` slot of an entry:
either a primitive (including `null`/missing) or an object with those
fields. The validator only checks `!== undefined && typeof === 'object'`,
so `null` (whose `typeof` is `'object'`) passes the shape check. -/
inductive NQVal where
  | prim (a : JAtom)
  | obj (download_mbps upload_mbps responsiveness_rpm : JAtom)
deriving DecidableEq, Repr, Inhabited

/-- The `speedtest` slot of an entry. -/
inductive SpeedVal where
  | prim (a : JAtom)
  | obj (download_mbps upload_mbps ping_ms server_location server_country : JAtom)
deriving DecidableEq, Repr, Inhabited

/-- `v !== undefined && typeof v === 'object'` for the `networkquality`
slot (note `typeof null === 'object'`). -/
def nqShapeOk (v : NQVal) : Bool :=
  match v with
  | .prim .jundef => false
  | .prim .jnull => true
  | .prim _ => false
  | .obj _ _ _ => true

/-- `v !== undefined && typeof v === 'object'` for the `speedtest` slot. -/
def stShapeOk (v : SpeedVal) : Bool :=
  match v with
  | .prim .jundef => false
  | .prim .jnull => true
  | .prim _ => false
  | .obj _ _ _ _ _ => true

namespace Worker

/-! ## Embedding of `src/index.ts` (schema version 2 worker) -/

/-- `CONFIG.MAX_BATCH_SIZE` -/
def MAX_BATCH_SIZE : Nat := 100

/-- `CONFIG.MAX_QUERY_LIMIT` -/
def MAX_QUERY_LIMIT : Int := 10000

/-- `CONFIG.DEFAULT_QUERY_LIMIT` -/
def DEFAULT_QUERY_LIMIT : Int := 1000

/-- `CONFIG.SCHEMA_VERSION` -/
def SCHEMA_VERSION : Nat := 2

/-- The `rtt_ms` field of a ping result: a primitive or an
`{min, avg, max, stddev}` object. -/
inductive RttVal where
  | prim (a : JAtom)
  | obj (min avg max stddev : JAtom)
deriving DecidableEq, Repr, Inhabited

/-- `isValidRttStats`: a falsy or non-object value is accepted outright
(`if (!stats || typeof stats !== 'object') return true`), an object must
have each of the four fields either `null` or a number `≥ 0`. (A missing
field is `undefined`, which `isValidNumber` rejects.) -/
def isValidRttStats (stats : RttVal) : Bool :=
  match stats with
  | .prim _ => true
  | .obj min avg max stddev =>
      (min == .jnull || isValidNumber min (some 0) none) &&
      (avg == .jnull || isValidNumber avg (some 0) none) &&
      (max == .jnull || isValidNumber max (some 0) none) &&
      (stddev == .jnull || isValidNumber stddev (some 0) none)

/-- A single ping result slot (`e.ping.cloudflare` / `e.ping.google`). -/
inductive PingVal where
  | prim (a : JAtom)
  | obj (host packet_loss_percent : JAtom) (rtt_ms : RttVal)
deriving DecidableEq, Repr, Inhabited

/-- `isValidPingResult`: must be a truthy object, `host` a string,
`packet_loss_percent` absent, `null` or a number in `[0, 100]`, and
`rtt_ms` absent, `null` or valid rtt stats. -/
def isValidPingResult (ping : PingVal) : Bool :=
  match ping with
  | .prim _ => false
  | .obj host packet_loss_percent rtt_ms =>
      (match host with | .jstr _ => true | _ => false) &&
      (packet_loss_percent == .jundef || packet_loss_percent == .jnull ||
        isValidNumber packet_loss_percent (some 0) (some 100)) &&
      (match rtt_ms with
        | .prim .jundef => true
        | .prim .jnull => true
        | r => isValidRttStats r)

/-- The `e.ping` slot: a primitive or an object with the two fixed keys. -/
inductive PingPairVal where
  | prim (a : JAtom)
  | obj (cloudflare google : PingVal)
deriving DecidableEq, Repr, Inhabited

/-- One curl result slot value (the value found at `us_dlsdemo` /
`eu_dlsdemo` when the key is present). -/
inductive CurlVal where
  | prim (a : JAtom)
  | obj (url dns_lookup_s ttfb_s http_code : JAtom)
deriving DecidableEq, Repr, Inhabited

/-- The `e.curl` slot; `Option` on the two keys models key presence as
tested by the `in` operator (a key can be present with value `undefined`,
which is `some (.prim .jundef)`). -/
inductive CurlPairVal where
  | prim (a : JAtom)
  | obj (us_dlsdemo eu_dlsdemo : Option CurlVal)
deriving DecidableEq, Repr, Inhabited

/-- One mtr result slot value. The `hops` field is kept as an opaque
primitive; the worker only tests its truthiness and serializes it. -/
inductive MtrVal where
  | prim (a : JAtom)
  | obj (host hops : JAtom)
deriving DecidableEq, Repr, Inhabited

/-- The `e.mtr` slot. -/
inductive MtrPairVal where
  | prim (a : JAtom)
  | obj (cloudflare google : Option MtrVal)
deriving DecidableEq, Repr, Inhabited

/-- One dns result slot value. -/
inductive DnsVal where
  | prim (a : JAtom)
  | obj (domain resolver query_time_ms : JAtom)
deriving DecidableEq, Repr, Inhabited

/-- The `e.dns` slot. -/
inductive DnsPairVal where
  | prim (a : JAtom)
  | obj (cloudflare google : Option DnsVal)
deriving DecidableEq, Repr, Inhabited

/-- A raw upload entry as the validator sees it: every property access on a
missing field yields `undefined`, so each field is total with `.prim .jundef`
for "absent". -/
structure RawEntry where
  timestamp : JAtom
  networkquality : NQVal
  speedtest : SpeedVal
  ping : PingPairVal
  curl : CurlPairVal
  mtr : MtrPairVal
  dns : DnsPairVal
deriving DecidableEq, Repr, Inhabited

/-- A decoded JSON array element: either not an object (primitive, hence
rejected by the first guard of `isValidEntry`) or an object. -/
inductive EntryVal where
  | nonObj (a : JAtom)
  | obj (e : RawEntry)
deriving DecidableEq, Repr, Inhabited

/-- `e.ping !== undefined && typeof e.ping === 'object' &&
isValidPingResult(e.ping.cloudflare) && isValidPingResult(e.ping.google)`.
When `e.ping` is `null` the `typeof` check passes and the property access
`e.ping.cloudflare` throws a `TypeError` (`none`). -/
def pingPairChk (v : PingPairVal) : Option Bool :=
  match v with
  | .prim .jundef => some false
  | .prim .jnull => none
  | .prim _ => some false
  | .obj cloudflare google =>
      some (isValidPingResult cloudflare && isValidPingResult google)

/-- `e.curl !== undefined && typeof e.curl === 'object' &&
'us_dlsdemo' in e.curl && 'eu_dlsdemo' in e.curl`. The `in` operator on
`null` throws (`none`); other primitives fail the `typeof` guard first. -/
def curlPairChk (v : CurlPairVal) : Option Bool :=
  match v with
  | .prim .jundef => some false
  | .prim .jnull => none
  | .prim _ => some false
  | .obj us eu => some (us.isSome && eu.isSome)

/-- `e.mtr !== undefined && typeof e.mtr === 'object' &&
'cloudflare' in e.mtr && 'google' in e.mtr`. -/
def mtrPairChk (v : MtrPairVal) : Option Bool :=
  match v with
  | .prim .jundef => some false
  | .prim .jnull => none
  | .prim _ => some false
  | .obj cf g => some (cf.isSome && g.isSome)

/-- `e.dns !== undefined && typeof e.dns === 'object' &&
'cloudflare' in e.dns && 'google' in e.dns`. -/
def dnsPairChk (v : DnsPairVal) : Option Bool :=
  match v with
  | .prim .jundef => some false
  | .prim .jnull => none
  | .prim _ => some false
  | .obj cf g => some (cf.isSome && g.isSome)

/-- `src/index.ts` `isValidEntry`, with the conjuncts evaluated in source
order and short-circuiting. `none` models the validator throwing a
`TypeError` (which escapes `handleUpload` to the top-level catch), which
happens exactly when `ping`, `curl`, `mtr` or `dns` is `null` and every
earlier conjunct passed. -/
def isValidEntry (parse : String → Option Int) (now : Int)
    (entry : EntryVal) : Option Bool :=
  match entry with
  | .nonObj _ => some false
  | .obj e =>
      match e.timestamp with
      | .jstr ts =>
          if isValidTimestamp parse now ts then
            if nqShapeOk e.networkquality then
              if stShapeOk e.speedtest then
                match pingPairChk e.ping with
                | none => none
                | some false => some false
                | some true =>
                    match curlPairChk e.curl with
                    | none => none
                    | some false => some false
                    | some true =>
                        match mtrPairChk e.mtr with
                        | none => none
                        | some false => some false
                        | some true =>
                            match dnsPairChk e.dns with
                            | none => none
                            | some b => some b
              else some false
            else some false
          else some false
      | _ => some false

/-- Extract the timestamp string of a (validated) entry, as used by the
duplicate check and the insert binding (`entry.timestamp`). Validation
guarantees the field is a string; other cases return a dummy. -/
def tsOf (entry : EntryVal) : String :=
  match entry with
  | .obj e => match e.timestamp with | .jstr s => s | _ => ""
  | .nonObj _ => ""

/-- One row of `network_logs` as bound by `INSERT_NETWORK_LOG_SQL`
(34 parameters, in source order). -/
structure Row where
  timestamp : String
  schema_version : Nat
  nq_download_mbps : JAtom
  nq_upload_mbps : JAtom
  nq_responsiveness_rpm : JAtom
  ping_cf_host : JAtom
  ping_cf_packet_loss_percent : JAtom
  ping_cf_rtt_avg : JAtom
  ping_cf_rtt_min : JAtom
  ping_cf_rtt_max : JAtom
  ping_cf_rtt_stddev : JAtom
  ping_google_host : JAtom
  ping_google_packet_loss_percent : JAtom
  ping_google_rtt_avg : JAtom
  ping_google_rtt_min : JAtom
  ping_google_rtt_max : JAtom
  ping_google_rtt_stddev : JAtom
  curl_us_url : JAtom
  curl_us_dns_lookup_s : JAtom
  curl_us_ttfb_s : JAtom
  curl_us_http_code : JAtom
  curl_eu_url : JAtom
  curl_eu_dns_lookup_s : JAtom
  curl_eu_ttfb_s : JAtom
  curl_eu_http_code : JAtom
  st_download_mbps : JAtom
  st_upload_mbps : JAtom
  st_ping_ms : JAtom
  st_server_location : JAtom
  st_server_country : JAtom
  dns_cf_query_time_ms : JAtom
  dns_google_query_time_ms : JAtom
  mtr_cloudflare_hops : JAtom
  mtr_google_hops : JAtom
deriving DecidableEq, Repr, Inhabited

/-- The persisted table, in insertion order. -/
abbrev Store := List Row

/-- The timestamps currently in the store (the unique index column). -/
def storeTimestamps (store : Store) : List String :=
  store.map Row.timestamp

/-- A bind parameter that is bound directly (no `?? null`): `undefined` is
not a supported D1 bind type, so binding it throws (`none`). -/
def bindDirect (a : JAtom) : Option JAtom :=
  match a with
  | .jundef => none
  | x => some x

/-- Bind the three `networkquality` fields (`networkquality.download_mbps`
etc., no `??` fallback). A primitive `networkquality` either throws on
property access (`null`/`undefined`) or yields `undefined` fields whose
bind throws; both are modelled as `none`. -/
def bindNq (v : NQVal) : Option (JAtom × JAtom × JAtom) :=
  match v with
  | .prim _ => none
  | .obj d u r => do
      let d2 ← bindDirect d
      let u2 ← bindDirect u
      let r2 ← bindDirect r
      pure (d2, u2, r2)

/-- `rtt_ms?.f ?? null` for one statistic. -/
def rttField (v : RttVal) (f : JAtom) : JAtom :=
  match v with
  | .prim _ => .jnull
  | .obj _ _ _ _ => coalesce f

/-- Bind one ping slot: `host` directly, `packet_loss_percent ?? null`,
and the four `rtt_ms?.x ?? null` statistics
(avg, min, max, stddev in bind order). -/
def bindPing (v : PingVal) :
    Option (JAtom × JAtom × JAtom × JAtom × JAtom × JAtom) :=
  match v with
  | .prim _ => none
  | .obj host packet_loss_percent rtt_ms => do
      let h ← bindDirect host
      pure (h, coalesce packet_loss_percent,
        (match rtt_ms with | .prim _ => .jnull | .obj _ avg _ _ => coalesce avg),
        (match rtt_ms with | .prim _ => .jnull | .obj min _ _ _ => coalesce min),
        (match rtt_ms with | .prim _ => .jnull | .obj _ _ max _ => coalesce max),
        (match rtt_ms with | .prim _ => .jnull | .obj _ _ _ sd => coalesce sd))

/-- Bind one curl slot: `url` directly, the rest with `?? null`. A missing
key or a `null`/`undefined` value throws on `.url`; another primitive
yields `undefined` for `url`, whose bind throws. -/
def bindCurl (v : Option CurlVal) : Option (JAtom × JAtom × JAtom × JAtom) :=
  match v with
  | none => none
  | some (.prim _) => none
  | some (.obj url dns_lookup_s ttfb_s http_code) => do
      let u ← bindDirect url
      pure (u, coalesce dns_lookup_s, coalesce ttfb_s, coalesce http_code)

/-- Bind the five `speedtest` fields, all with `?? null`. `speedtest` equal
to `null` throws on property access; a non-null primitive yields
`undefined` fields that `??` turns into `null`. -/
def bindSpeed (v : SpeedVal) :
    Option (JAtom × JAtom × JAtom × JAtom × JAtom) :=
  match v with
  | .prim .jnull => none
  | .prim .jundef => none
  | .prim _ => some (.jnull, .jnull, .jnull, .jnull, .jnull)
  | .obj d u p loc c =>
      some (coalesce d, coalesce u, coalesce p, coalesce loc, coalesce c)

/-- `dns.cloudflare.query_time_ms ?? null` for one dns slot. A missing key
or `null`/`undefined` value throws; a non-null primitive yields
`undefined`, coalesced to `null`. -/
def bindDnsSlot (v : Option DnsVal) : Option JAtom :=
  match v with
  | none => none
  | some (.prim .jnull) => none
  | some (.prim .jundef) => none
  | some (.prim _) => some .jnull
  | some (.obj _ _ query_time_ms) => some (coalesce query_time_ms)

/-- `mtr.cloudflare.hops ? JSON.stringify(mtr.cloudflare.hops) : null` for
one mtr slot; JSON serialization of the opaque `hops` value is modelled as
the value itself. -/
def bindMtrSlot (v : Option MtrVal) : Option JAtom :=
  match v with
  | none => none
  | some (.prim .jnull) => none
  | some (.prim .jundef) => none
  | some (.prim _) => some .jnull
  | some (.obj _ hops) => some (if jsTruthy hops then hops else .jnull)

/-- Translate one validated entry into the bound insert row (source lines
binding the 34 parameters of `INSERT_NETWORK_LOG_SQL`). `none` models a
thrown `TypeError` during destructuring / an unsupported `undefined` bind
parameter; either aborts the `try` block with the database-error response.
A non-string timestamp never reaches this point (validation requires a
string) and is modelled as a failed bind. -/
def bindRow (entry : EntryVal) : Option Row :=
  match entry with
  | .nonObj _ => none
  | .obj e =>
      match e.timestamp with
      | .jstr ts => do
          let (nqd, nqu, nqr) ← bindNq e.networkquality
          let pingPair ← match e.ping with
            | .prim _ => none
            | .obj cf g => some (cf, g)
          let (cfh, cfl, cfa, cfmin, cfmax, cfsd) ← bindPing pingPair.1
          let (gh, gl, ga, gmin, gmax, gsd) ← bindPing pingPair.2
          let curlPair ← match e.curl with
            | .prim _ => none
            | .obj us eu => some (us, eu)
          let (usu, usd, ust, ush) ← bindCurl curlPair.1
          let (euu, eud, eut, euh) ← bindCurl curlPair.2
          let (std, stu, stp, stl, stc) ← bindSpeed e.speedtest
          let dnsPair ← match e.dns with
            | .prim _ => none
            | .obj cf g => some (cf, g)
          let dcf ← bindDnsSlot dnsPair.1
          let dg ← bindDnsSlot dnsPair.2
          let mtrPair ← match e.mtr with
            | .prim _ => none
            | .obj cf g => some (cf, g)
          let mcf ← bindMtrSlot mtrPair.1
          let mg ← bindMtrSlot mtrPair.2
          pure {
            timestamp := ts
            schema_version := SCHEMA_VERSION
            nq_download_mbps := nqd
            nq_upload_mbps := nqu
            nq_responsiveness_rpm := nqr
            ping_cf_host := cfh
            ping_cf_packet_loss_percent := cfl
            ping_cf_rtt_avg := cfa
            ping_cf_rtt_min := cfmin
            ping_cf_rtt_max := cfmax
            ping_cf_rtt_stddev := cfsd
            ping_google_host := gh
            ping_google_packet_loss_percent := gl
            ping_google_rtt_avg := ga
            ping_google_rtt_min := gmin
            ping_google_rtt_max := gmax
            ping_google_rtt_stddev := gsd
            curl_us_url := usu
            curl_us_dns_lookup_s := usd
            curl_us_ttfb_s := ust
            curl_us_http_code := ush
            curl_eu_url := euu
            curl_eu_dns_lookup_s := eud
            curl_eu_ttfb_s := eut
            curl_eu_http_code := euh
            st_download_mbps := std
            st_upload_mbps := stu
            st_ping_ms := stp
            st_server_location := stl
            st_server_country := stc
            dns_cf_query_time_ms := dcf
            dns_google_query_time_ms := dg
            mtr_cloudflare_hops := mcf
            mtr_google_hops := mg }
      | _ => none

/-- `schema.sql` CHECK constraint on one numeric column: `x IS NULL OR
x >= 0`. Following SQLite comparison semantics, non-numeric values compare
greater than every number, so only a finite negative number violates it. -/
def checkNonNeg (a : JAtom) : Bool :=
  match a with
  | .jnum (.val q) => decide (0 ≤ q)
  | _ => true

/-- All CHECK constraints declared by `schema.sql` on columns this worker
binds (`nq_*` and `st_*` numeric columns). -/
def rowOk (r : Row) : Bool :=
  checkNonNeg r.nq_download_mbps && checkNonNeg r.nq_upload_mbps &&
  checkNonNeg r.nq_responsiveness_rpm && checkNonNeg r.st_download_mbps &&
  checkNonNeg r.st_upload_mbps && checkNonNeg r.st_ping_ms

/-- The distinguishable ways a D1 insert can fail; the worker collapses
both into one generic 500 response. -/
inductive DbErr where
  | uniqueViolation
  | checkViolation
deriving DecidableEq, Repr

/-- Insert one row, enforcing `schema.sql`'s `timestamp TEXT NOT NULL
UNIQUE` index and the CHECK constraints. -/
def dbInsert (r : Row) (store : Store) : Except DbErr Store :=
  if r.timestamp ∈ storeTimestamps store then .error .uniqueViolation
  else if rowOk r then .ok (store ++ [r])
  else .error .checkViolation

/-- `env.DB.batch(statements)`: the statements run as one transaction;
any failure rolls the whole batch back (the caller keeps the old store). -/
def dbBatch (rows : List Row) (store : Store) : Except DbErr Store :=
  match rows with
  | [] => .ok store
  | r :: rs =>
      match dbInsert r store with
      | .ok store2 => dbBatch rs store2
      | .error e => .error e

/-- The observable part of an HTTP response from the worker: status code,
`error` message of an `ErrorResponse`, and `inserted` count of a
`SuccessResponse` (request id / timestamps / `details` omitted). -/
structure Resp where
  status : Nat
  error : Option String
  inserted : Option Nat
deriving DecidableEq, Repr

/-- An error response with the given status and message. -/
def mkErr (status : Nat) (msg : String) : Resp :=
  { status := status, error := some msg, inserted := none }

/-- The decoded request body of `POST /upload`: a JSON decode failure, a
decoded root that is not an array, or an array of elements. -/
inductive BodyVal where
  | invalidJson
  | notArray
  | arr (entries : List EntryVal)

/-- `Invalid entry format found in {invalid} of {total} entries` -/
def invalidEntriesMsg (invalid total : Nat) : String :=
  "Invalid entry format found in " ++ toString invalid ++ " of " ++
    toString total ++ " entries"

/-- `{n} entries with duplicate timestamps rejected` -/
def duplicatesMsg (n : Nat) : String :=
  toString n ++ " entries with duplicate timestamps rejected"

/-- `Batch size exceeds maximum of {MAX_BATCH_SIZE} entries` -/
def batchSizeMsg : String :=
  "Batch size exceeds maximum of " ++ toString MAX_BATCH_SIZE ++ " entries"

/-- `entries.filter(isValidEntry)`: `none` when the validator throws on
some element (the exception escapes `handleUpload`). -/
def filterValid (parse : String → Option Int) (now : Int) :
    List EntryVal → Option (List EntryVal)
  | [] => some []
  | e :: es =>
      match isValidEntry parse now e with
      | none => none
      | some b =>
          (filterValid parse now es).map (fun l => if b then e :: l else l)

/-- Build the insert statements for all valid entries; `none` when any
binding throws. -/
def bindAll : List EntryVal → Option (List Row)
  | [] => some []
  | e :: es =>
      match bindRow e with
      | none => none
      | some r => (bindAll es).map (fun rs => r :: rs)

/-- `src/index.ts` `handleUpload`, composed with the store semantics.
Returns the response and the store after the request. The final `none` of
`filterValid` corresponds to the validator throwing, which is caught by the
top-level `fetch` handler (`Internal Server Error`, 500); failures inside
the `try` block (bind errors and `dbBatch` failures of either kind) yield
the generic `Database operation failed` 500. -/
def handleUpload (parse : String → Option Int) (now : Int)
    (body : BodyVal) (store : Store) : Resp × Store :=
  match body with
  | .invalidJson => (mkErr 400 "Invalid JSON in request body", store)
  | .notArray =>
      (mkErr 400 "Request body must be an array of network log entries", store)
  | .arr entries =>
      if entries.length = 0 then
        (mkErr 400 "Request body must contain at least one entry", store)
      else if MAX_BATCH_SIZE < entries.length then
        (mkErr 400 batchSizeMsg, store)
      else
        match filterValid parse now entries with
        | none => (mkErr 500 "Internal Server Error", store)
        | some validEntries =>
            if validEntries.length ≠ entries.length then
              (mkErr 400 (invalidEntriesMsg
                (entries.length - validEntries.length) entries.length), store)
            else
              let duplicates := validEntries.filter
                (fun e => decide (tsOf e ∈ storeTimestamps store))
              if 0 < duplicates.length then
                (mkErr 409 (duplicatesMsg duplicates.length), store)
              else
                match bindAll validEntries with
                | none => (mkErr 500 "Database operation failed", store)
                | some rows =>
                    match dbBatch rows store with
                    | .error _ => (mkErr 500 "Database operation failed", store)
                    | .ok store2 =>
                        ({ status := 200, error := none,
                           inserted := some validEntries.length }, store2)

/-- JavaScript `parseInt(s, 10)`: skip leading whitespace, read an optional
sign, then the longest prefix of decimal digits; `NaN` (`none`) if there is
no digit. -/
def parseIntJS (s : String) : Option Int :=
  let cs := s.data.dropWhile Char.isWhitespace
  let signAndRest : Bool × List Char :=
    match cs with
    | '-' :: rest => (true, rest)
    | '+' :: rest => (false, rest)
    | _ => (false, cs)
  let digits := signAndRest.2.takeWhile Char.isDigit
  if digits.isEmpty then none
  else
    let n : Nat := digits.foldl (fun acc c => acc * 10 + (c.toNat - 48)) 0
    some (if signAndRest.1 then -(n : Int) else (n : Int))

/-- Lexicographic strict comparison of char lists (structural, so that it
evaluates inside the kernel; SQLite's BINARY collation on UTF-8 text agrees
with code-point lexicographic order). -/
def charListLt : List Char → List Char → Bool
  | _, [] => false
  | [], _ :: _ => true
  | a :: as, b :: bs =>
      if a < b then true
      else if b < a then false
      else charListLt as bs

/-- Strict string comparison used for `ORDER BY timestamp DESC`; proven
equivalent to the standard `String` order below. -/
def strLt (a b : String) : Bool := charListLt a.data b.data

/-- Insert a row into a list sorted by descending timestamp. -/
def insertRowDesc (r : Row) : List Row → List Row
  | [] => [r]
  | x :: xs =>
      if strLt x.timestamp r.timestamp then r :: x :: xs
      else x :: insertRowDesc r xs

/-- `ORDER BY timestamp DESC` over the whole table (timestamps are TEXT,
compared by SQLite's default binary collation, i.e. string order). -/
def sortRowsDesc (store : Store) : List Row :=
  store.foldr insertRowDesc []

/-- `SELECT * FROM network_logs ORDER BY timestamp DESC LIMIT ?`. -/
def queryLogs (store : Store) (limit : Nat) : List Row :=
  (sortRowsDesc store).take limit

/-- The observable part of a `GET /api/logs` response. -/
structure LogsResp where
  status : Nat
  rows : List Row
  error : Option String
deriving DecidableEq, Repr

/-- `src/index.ts` `handleGetLogs`. `limitParam` is
`url.searchParams.get('limit')` (`none` when the parameter is absent). The
source computes `limit` before the `NaN` guard, but both are pure, so the
guard is modelled first; an empty-string parameter is falsy in
`limitParam ? ... : DEFAULT` and in the guard, so it takes the default
limit and skips the 400 path. Otherwise a parsed limit is clamped by
`Math.min(Math.max(n, 1), MAX_QUERY_LIMIT)`. -/
def handleGetLogs (limitParam : Option String) (store : Store) : LogsResp :=
  match limitParam with
  | none =>
      { status := 200, rows := queryLogs store DEFAULT_QUERY_LIMIT.toNat,
        error := none }
  | some s =>
      if s = "" then
        { status := 200, rows := queryLogs store DEFAULT_QUERY_LIMIT.toNat,
          error := none }
      else
        match parseIntJS s with
        | none =>
            { status := 400, rows := [],
              error := some "Invalid limit parameter, must be a number" }
        | some n =>
            { status := 200,
              rows := queryLogs store (min (max n 1) MAX_QUERY_LIMIT).toNat,
              error := none }

end Worker

namespace WorkerV3

/-! ## Embedding of the "Modular Endpoint Architecture" worker version
(`src/unnamed/part_002`, schema version 3), whose `isValidEntry` replaces
the fixed `ping`/`curl`/`mtr`/`dns` objects with four
`ping_results`/`curl_results`/`mtr_results`/`dns_results` arrays of
`EndpointResult` elements (`{id, name, ...}`). -/

/-- One element of a result array, with the identity fields the spec
requires and a representative numeric sub-field. The validator never
inspects elements, so any further fields are irrelevant to it. -/
structure EndpointResult where
  id : JAtom
  name : JAtom
  packet_loss_percent : JAtom
deriving DecidableEq, Repr, Inhabited

/-- A result-array field of an entry: an array of elements, or any
non-array value (`Array.isArray` is false on it). -/
inductive ArrVal where
  | nonArr (a : JAtom)
  | arr (elems : List EndpointResult)
deriving DecidableEq, Repr, Inhabited

/-- A raw entry of the V3 worker as its validator sees it. -/
structure RawEntry where
  timestamp : JAtom
  networkquality : NQVal
  speedtest : SpeedVal
  ping_results : ArrVal
  curl_results : ArrVal
  mtr_results : ArrVal
  dns_results : ArrVal
deriving DecidableEq, Repr, Inhabited

/-- A decoded array element: a non-object (rejected by the first guard) or
an object. -/
inductive EntryVal where
  | nonObj (a : JAtom)
  | obj (e : RawEntry)
deriving DecidableEq, Repr, Inhabited

/-- `Array.isArray(v)` -/
def isArr (v : ArrVal) : Bool :=
  match v with
  | .nonArr _ => false
  | .arr _ => true

/-- `part_002` `isValidEntry`: timestamp is a string in the freshness
window, `networkquality` and `speedtest` pass the `!== undefined &&
typeof === 'object'` shape check, and the four result fields are arrays.
No conjunct inspects the array elements, and no conjunct can throw. -/
def isValidEntry (parse : String → Option Int) (now : Int)
    (entry : EntryVal) : Bool :=
  match entry with
  | .nonObj _ => false
  | .obj e =>
      (match e.timestamp with
        | .jstr ts => isValidTimestamp parse now ts
        | _ => false) &&
      nqShapeOk e.networkquality &&
      stShapeOk e.speedtest &&
      isArr e.ping_results &&
      isArr e.curl_results &&
      isArr e.mtr_results &&
      isArr e.dns_results

end WorkerV3

/-! ## Concrete fixtures

A concrete host parser / clock and concrete entries used to instantiate the
theorems below on explicit inputs. `testParse` models `new Date(s).getTime()`
on the handful of timestamp strings the fixtures use; `testNow` models
`Date.now()` at the moment of the request. -/

/-- A concrete host date parser knowing the fixture timestamps. -/
def testParse : String → Option Int := fun s =>
  if s = "2025-06-01T00:00:00Z" then some 1748736000000
  else if s = "2025-06-01T01:00:00Z" then some 1748739600000
  else none

/-- A concrete host clock: 2025-06-01T00:00:00Z in epoch milliseconds. -/
def testNow : Int := 1748736000000

/-- A fully valid upload entry for the `src/index.ts` worker. -/
def wRaw : Worker.RawEntry := {
  timestamp := .jstr "2025-06-01T00:00:00Z"
  networkquality := .obj .jnull .jnull .jnull
  speedtest := .obj .jnull .jnull .jnull .jnull .jnull
  ping := .obj (.obj (.jstr "1.1.1.1") .jnull (.prim .jnull))
    (.obj (.jstr "8.8.8.8") .jnull (.prim .jnull))
  curl := .obj (some (.obj (.jstr "us.dlsdemo.com") .jnull .jnull .jnull))
    (some (.obj (.jstr "eu.dlsdemo.com") .jnull .jnull .jnull))
  mtr := .obj (some (.obj (.jstr "1.1.1.1") .jnull))
    (some (.obj (.jstr "8.8.8.8") .jnull))
  dns := .obj (some (.obj (.jstr "example.com") (.jstr "1.1.1.1") .jnull))
    (some (.obj (.jstr "example.com") (.jstr "8.8.8.8") .jnull)) }

/-- `wRaw` as a decoded array element. -/
def wEntry : Worker.EntryVal := .obj wRaw

/-- A second valid entry with a distinct timestamp. -/
def wEntry2 : Worker.EntryVal :=
  .obj { wRaw with timestamp := .jstr "2025-06-01T01:00:00Z" }

/-- The row `wEntry` binds to. -/
def wRow : Worker.Row := (Worker.bindRow wEntry).getD default

/-- A valid-shaped entry except that `ping` is `null`: it passes
`typeof e.ping === 'object'` (since `typeof null === 'object'`) and the
property access `e.ping.cloudflare` inside the validator throws a
`TypeError`, which escapes `handleUpload`. -/
def crashRaw : Worker.RawEntry := { wRaw with ping := .prim .jnull }

/-- A trivially invalid entry (a number, not an object). -/
def badEntry : Worker.EntryVal := .nonObj (.jnum (.val 42))

/-- A valid-shaped entry whose `curl.us_dlsdemo.dns_lookup_s` is `-3`:
the spec declares `dnsLookupSeconds ≥ 0`, but the validator never inspects
curl element numerics. -/
def c6Raw : Worker.RawEntry := { wRaw with
  curl := .obj
    (some (.obj (.jstr "us.dlsdemo.com") (.jnum (.val (-3))) .jnull .jnull))
    (some (.obj (.jstr "eu.dlsdemo.com") .jnull .jnull .jnull)) }

/-- A valid-shaped entry whose cloudflare ping result reports
`packet_loss_percent = 150`, outside `[0, 100]`. -/
def c6PingBadRaw : Worker.RawEntry := { wRaw with
  ping := .obj (.obj (.jstr "1.1.1.1") (.jnum (.val 150)) (.prim .jnull))
    (.obj (.jstr "8.8.8.8") .jnull (.prim .jnull)) }

/-- The concrete scenario of spec §8: a valid-shaped entry with
`networkquality.download_mbps = -5`. -/
def c7Raw : Worker.RawEntry := { wRaw with
  networkquality := .obj (.jnum (.val (-5))) .jnull .jnull }

/-- A result-array element with empty `id` and `name` and an out-of-range
numeric sub-field. -/
def c5Elem : WorkerV3.EndpointResult :=
  { id := .jstr "", name := .jstr "", packet_loss_percent := .jnum (.val (-1)) }

/-- A V3 entry that is valid except that its `ping_results` array contains
`c5Elem`, which violates every element-level requirement of the spec. -/
def c5Raw : WorkerV3.RawEntry := {
  timestamp := .jstr "2025-06-01T00:00:00Z"
  networkquality := .obj .jnull .jnull .jnull
  speedtest := .obj .jnull .jnull .jnull .jnull .jnull
  ping_results := .arr [c5Elem]
  curl_results := .arr []
  mtr_results := .arr []
  dns_results := .arr [] }

/-- A minimal stored row with the given timestamp (all metric columns
NULL). -/
def mkRowTs (ts : String) : Worker.Row :=
  ⟨ts, 2, .jnull, .jnull, .jnull, .jnull, .jnull, .jnull, .jnull, .jnull,
   .jnull, .jnull, .jnull, .jnull, .jnull, .jnull, .jnull, .jnull, .jnull,
   .jnull, .jnull, .jnull, .jnull, .jnull, .jnull, .jnull, .jnull, .jnull,
   .jnull, .jnull, .jnull, .jnull, .jnull, .jnull⟩

/-- A two-row store with distinct timestamps, deliberately unsorted. -/
def c9Store : Worker.Store := [mkRowTs "2025-01-01", mkRowTs "2025-03-01"]

namespace Worker

/-! ## Lemmas about the validation filter -/

theorem filterValid_length_le (parse : String → Option Int) (now : Int) :
    ∀ es l, filterValid parse now es = some l → l.length ≤ es.length := by
  intro es
  induction es with
  | nil =>
      intro l h
      simp only [filterValid, Option.some_inj] at h
      simp [← h]
  | cons e es ih =>
      intro l h
      simp only [filterValid] at h
      cases hv : isValidEntry parse now e with
      | none => rw [hv] at h; exact absurd h (by simp)
      | some b =>
          rw [hv] at h
          cases hf : filterValid parse now es with
          | none => rw [hf] at h; exact absurd h (by simp)
          | some l2 =>
              rw [hf] at h
              cases b with
              | true =>
                  simp at h
                  subst h
                  simpa using Nat.succ_le_succ (ih l2 hf)
              | false =>
                  simp at h
                  subst h
                  exact Nat.le_succ_of_le (ih l2 hf)

theorem filterValid_all (parse : String → Option Int) (now : Int) :
    ∀ es, (∀ e ∈ es, isValidEntry parse now e = some true) →
      filterValid parse now es = some es := by
  intro es
  induction es with
  | nil => intro _; rfl
  | cons e es ih =>
      intro h
      have he := h e (List.mem_cons_self e es)
      have hrest := ih (fun x hx => h x (List.mem_cons_of_mem e hx))
      simp [filterValid, he, hrest]

theorem filterValid_none (parse : String → Option Int) (now : Int) :
    ∀ es e, e ∈ es → isValidEntry parse now e = none →
      filterValid parse now es = none := by
  intro es
  induction es with
  | nil => intro e he; exact absurd he (List.not_mem_nil e)
  | cons x es ih =>
      intro e he hcrash
      rcases List.mem_cons.mp he with h | h
      · subst h; simp [filterValid, hcrash]
      · cases hv : isValidEntry parse now x with
        | none => simp [filterValid, hv]
        | some b => simp [filterValid, hv, ih e h hcrash]

theorem filterValid_length_eq_iff (parse : String → Option Int) (now : Int) :
    ∀ es l, filterValid parse now es = some l →
      (l.length = es.length ↔
        ∀ e ∈ es, isValidEntry parse now e = some true) := by
  intro es
  induction es with
  | nil =>
      intro l h
      simp only [filterValid, Option.some_inj] at h
      simp [← h]
  | cons e es ih =>
      intro l h
      simp only [filterValid] at h
      cases hv : isValidEntry parse now e with
      | none => rw [hv] at h; exact absurd h (by simp)
      | some b =>
          rw [hv] at h
          cases hf : filterValid parse now es with
          | none => rw [hf] at h; exact absurd h (by simp)
          | some l2 =>
              rw [hf] at h
              cases b with
              | true =>
                  simp at h
                  subst h
                  constructor
                  · intro hlen x hx
                    rcases List.mem_cons.mp hx with h | h
                    · subst h; exact hv
                    · exact ((ih l2 hf).mp (by simpa using hlen)) x h
                  · intro hall
                    have : l2.length = es.length :=
                      (ih l2 hf).mpr
                        (fun x hx => hall x (List.mem_cons_of_mem e hx))
                    simp [this]
              | false =>
                  simp at h
                  subst h
                  constructor
                  · intro hlen
                    exact absurd hlen
                      (Nat.ne_of_lt
                        (Nat.lt_succ_of_le (filterValid_length_le parse now es l2 hf)))
                  · intro hall
                    exact absurd (hall e (List.mem_cons_self e es)) (by simp [hv])

theorem filterValid_isSome (parse : String → Option Int) (now : Int) :
    ∀ es, (∀ e ∈ es, isValidEntry parse now e ≠ none) →
      ∃ l, filterValid parse now es = some l := by
  intro es
  induction es with
  | nil => intro _; exact ⟨[], rfl⟩
  | cons x xs ih =>
      intro h
      have hx := h x (List.mem_cons_self x xs)
      cases hv : isValidEntry parse now x with
      | none => exact absurd hv hx
      | some b =>
          obtain ⟨l2, hl2⟩ := ih (fun e he => h e (List.mem_cons_of_mem x he))
          exact ⟨if b then x :: l2 else l2, by simp [filterValid, hv, hl2]⟩

/-- Any batch that passed the structural guards and contains an entry the
validator rejects (with no entry making the validator throw) is answered
with the invalid-entries 400 and leaves the store unchanged. -/
theorem handleUpload_invalid (parse : String → Option Int) (now : Int)
    (es : List EntryVal) (store : Store)
    (hnc : ∀ e ∈ es, isValidEntry parse now e ≠ none)
    (hbad : ∃ e ∈ es, isValidEntry parse now e = some false) :
    (handleUpload parse now (.arr es) store).1.status = 400 ∧
    (handleUpload parse now (.arr es) store).2 = store ∧
    (handleUpload parse now (.arr es) store).1.inserted = none ∧
    (es.length ≤ MAX_BATCH_SIZE →
      ∃ l, filterValid parse now es = some l ∧
        (handleUpload parse now (.arr es) store).1.error =
          some (invalidEntriesMsg (es.length - l.length) es.length)) := by
  obtain ⟨e0, he0, hbad0⟩ := hbad
  have hne : es.length ≠ 0 := by
    intro h
    rw [List.length_eq_zero] at h
    subst h
    exact absurd he0 (List.not_mem_nil e0)
  by_cases hlen : MAX_BATCH_SIZE < es.length
  · refine ⟨?_, ?_, ?_, fun hle => absurd hlen (by omega)⟩
    · simp [handleUpload, hne, hlen, mkErr]
    · simp [handleUpload, hne, hlen, mkErr]
    · simp [handleUpload, hne, hlen, mkErr]
  · obtain ⟨l, hf⟩ := filterValid_isSome parse now es hnc
    have hlne : l.length ≠ es.length := by
      intro hleq
      have hall := (filterValid_length_eq_iff parse now es l hf).mp hleq
      exact absurd (hall e0 he0) (by simp [hbad0])
    refine ⟨?_, ?_, ?_, fun _ => ⟨l, hf, ?_⟩⟩
    · simp [handleUpload, hne, hlen, hf, hlne, mkErr]
    · simp [handleUpload, hne, hlen, hf, hlne, mkErr]
    · simp [handleUpload, hne, hlen, hf, hlne, mkErr]
    · simp [handleUpload, hne, hlen, hf, hlne, mkErr]

end Worker

/-! ## Claim theorems -/

/-- C1 (counterexample): a batch that contains an entry failing validation
(`badEntry`, a bare number) is not always rejected with a 400 naming the
invalid count — when another entry of the batch has `ping: null`, the
validator itself throws inside `entries.filter(isValidEntry)` and the
request is answered 500 `Internal Server Error` (still with no entry
persisted). -/
theorem c1_invalid_batch_can_yield_500 :
    Worker.isValidEntry testParse testNow badEntry = some false ∧
    Worker.handleUpload testParse testNow (.arr [.obj crashRaw, badEntry]) [] =
      (Worker.mkErr 500 "Internal Server Error", []) ∧
    (Worker.handleUpload testParse testNow
        (.arr [.obj crashRaw, badEntry]) []).1.status ≠ 400 := by
  refine ⟨by decide, by decide, by decide⟩

/-- C1 (amended): for every upload batch, if some entry fails validation
and the validator completes on every entry of the batch (no entry aborts it
with a thrown `TypeError`), the whole batch is rejected with a 400 whose
message names the count of invalid entries (when the batch passed the size
guard), and no entry is persisted; if instead the validator aborts on some
entry, the whole batch is likewise rejected (500) with no entry
persisted. -/
theorem c1_all_or_nothing_validation (parse : String → Option Int) (now : Int)
    (es : List Worker.EntryVal) (store : Worker.Store) :
    ((∀ e ∈ es, Worker.isValidEntry parse now e ≠ none) →
     (∃ e ∈ es, Worker.isValidEntry parse now e = some false) →
      (Worker.handleUpload parse now (.arr es) store).1.status = 400 ∧
      (Worker.handleUpload parse now (.arr es) store).2 = store ∧
      (Worker.handleUpload parse now (.arr es) store).1.inserted = none ∧
      (es.length ≤ Worker.MAX_BATCH_SIZE →
        ∃ l, Worker.filterValid parse now es = some l ∧
          (Worker.handleUpload parse now (.arr es) store).1.error =
            some (Worker.invalidEntriesMsg (es.length - l.length) es.length))) ∧
    ((∃ e ∈ es, Worker.isValidEntry parse now e = none) →
      es.length ≤ Worker.MAX_BATCH_SIZE →
      (Worker.handleUpload parse now (.arr es) store).1.status = 500 ∧
      (Worker.handleUpload parse now (.arr es) store).2 = store) := by
  constructor
  · intro hnc hbad
    exact Worker.handleUpload_invalid parse now es store hnc hbad
  · intro hcrash hlen
    obtain ⟨e0, he0, h0⟩ := hcrash
    have hne : es.length ≠ 0 := by
      intro h
      rw [List.length_eq_zero] at h
      subst h
      exact absurd he0 (List.not_mem_nil e0)
    have hnlt : ¬(Worker.MAX_BATCH_SIZE < es.length) := by omega
    have hf := Worker.filterValid_none parse now es e0 he0 h0
    constructor
    · simp [Worker.handleUpload, hne, hnlt, hf, Worker.mkErr]
    · simp [Worker.handleUpload, hne, hnlt, hf, Worker.mkErr]

/-- C1 (witness for the amended theorem). -/
theorem c1_all_or_nothing_validation_witness :
    (Worker.handleUpload testParse testNow (.arr [badEntry]) []).1.status = 400 ∧
    (Worker.handleUpload testParse testNow (.arr [badEntry]) []).2 = [] ∧
    (Worker.handleUpload testParse testNow (.arr [.obj crashRaw]) []).1.status = 500 :=
  have h1 := c1_all_or_nothing_validation testParse testNow [badEntry] []
  have h2 := c1_all_or_nothing_validation testParse testNow [.obj crashRaw] []
  ⟨(h1.1 (by decide) ⟨badEntry, by decide, by decide⟩).1,
   (h1.1 (by decide) ⟨badEntry, by decide, by decide⟩).2.1,
   (h2.2 ⟨.obj crashRaw, by decide, by decide⟩ (by decide)).1⟩

/-- C2: a validated batch (every entry accepted by the validator, batch
within the size guard) containing at least one timestamp already persisted
is rejected with a 409 whose message carries the duplicate count, and the
store is unchanged (no entry of the batch is inserted). The 409 status
distinguishes it from the 400 validation failure. -/
theorem c2_duplicate_timestamps_rejected_409 (parse : String → Option Int)
    (now : Int) (es : List Worker.EntryVal) (store : Worker.Store)
    (hlen : es.length ≤ Worker.MAX_BATCH_SIZE)
    (hval : ∀ e ∈ es, Worker.isValidEntry parse now e = some true)
    (hdup : ∃ e ∈ es, Worker.tsOf e ∈ Worker.storeTimestamps store) :
    Worker.handleUpload parse now (.arr es) store =
      (Worker.mkErr 409 (Worker.duplicatesMsg
        ((es.filter (fun e =>
          decide (Worker.tsOf e ∈ Worker.storeTimestamps store))).length)),
       store) ∧
    0 < (es.filter (fun e =>
      decide (Worker.tsOf e ∈ Worker.storeTimestamps store))).length := by
  obtain ⟨e0, he0, hd0⟩ := hdup
  have hne : es.length ≠ 0 := by
    intro h
    rw [List.length_eq_zero] at h
    subst h
    exact absurd he0 (List.not_mem_nil e0)
  have hnlt : ¬(Worker.MAX_BATCH_SIZE < es.length) := by omega
  have hf := Worker.filterValid_all parse now es hval
  have hpos : 0 < (es.filter (fun e =>
      decide (Worker.tsOf e ∈ Worker.storeTimestamps store))).length :=
    List.length_pos.mpr
      (List.ne_nil_of_mem (List.mem_filter.mpr ⟨he0, by simpa using hd0⟩))
  refine ⟨?_, hpos⟩
  simp [Worker.handleUpload, hne, hnlt, hf, hpos, Worker.mkErr]

/-- C2 (witness): resubmitting `wEntry` when its row is already in the
store yields the 409 duplicate rejection with count 1. -/
theorem c2_duplicate_timestamps_rejected_409_witness :
    Worker.handleUpload testParse testNow (.arr [wEntry]) [wRow] =
      (Worker.mkErr 409 (Worker.duplicatesMsg 1), [wRow]) :=
  (c2_duplicate_timestamps_rejected_409 testParse testNow [wEntry] [wRow]
    (by decide) (by decide) ⟨wEntry, by decide, by decide⟩).1

/-- C3: `isValidTimestamp` accepts a timestamp string exactly when the host
parser yields a valid time value lying in `[now - 365 days, now + 1 hour]`
(milliseconds), and every entry accepted by `isValidEntry` has a timestamp
accepted by `isValidTimestamp`; an entry whose timestamp does not parse or
parses outside the window is rejected. -/
theorem c3_timestamp_freshness_window (parse : String → Option Int) (now : Int) :
    (∀ ts : String, isValidTimestamp parse now ts = true ↔
      ∃ t, parse ts = some t ∧
        now - 365 * 24 * 60 * 60 * 1000 ≤ t ∧ t ≤ now + 60 * 60 * 1000) ∧
    (∀ e, Worker.isValidEntry parse now e = some true →
      isValidTimestamp parse now (Worker.tsOf e) = true) := by
  constructor
  · intro ts
    unfold isValidTimestamp
    cases h : parse ts with
    | none => simp
    | some t => simp
  · intro e h
    cases e with
    | nonObj a => simp [Worker.isValidEntry] at h
    | obj r =>
        cases hts : r.timestamp with
        | jundef => simp [Worker.isValidEntry, hts] at h
        | jnull => simp [Worker.isValidEntry, hts] at h
        | jnum n => simp [Worker.isValidEntry, hts] at h
        | jbool b => simp [Worker.isValidEntry, hts] at h
        | jstr s =>
            simp only [Worker.isValidEntry, hts] at h
            by_cases hv : isValidTimestamp parse now s
            · simpa [Worker.tsOf, hts] using hv
            · rw [if_neg hv] at h
              exact absurd h (by simp)

/-- C3 (witness). -/
theorem c3_timestamp_freshness_window_witness :
    isValidTimestamp testParse testNow "2025-06-01T00:00:00Z" = true ∧
    isValidTimestamp testParse testNow (Worker.tsOf wEntry) = true :=
  ⟨((c3_timestamp_freshness_window testParse testNow).1
      "2025-06-01T00:00:00Z").mpr ⟨1748736000000, by decide, by decide, by decide⟩,
   (c3_timestamp_freshness_window testParse testNow).2 wEntry (by decide)⟩

/-- C4: a non-array decoded root, an empty array and a batch of more than
`MAX_BATCH_SIZE = 100` entries are each rejected with a 400 carrying a
distinct reason message, and the store is unchanged. -/
theorem c4_structural_guards (parse : String → Option Int) (now : Int)
    (store : Worker.Store) :
    Worker.handleUpload parse now .notArray store =
      (Worker.mkErr 400 "Request body must be an array of network log entries",
       store) ∧
    Worker.handleUpload parse now (.arr []) store =
      (Worker.mkErr 400 "Request body must contain at least one entry", store) ∧
    (∀ es : List Worker.EntryVal, Worker.MAX_BATCH_SIZE < es.length →
      Worker.handleUpload parse now (.arr es) store =
        (Worker.mkErr 400 Worker.batchSizeMsg, store)) ∧
    "Request body must be an array of network log entries" ≠
      "Request body must contain at least one entry" ∧
    "Request body must be an array of network log entries" ≠
      Worker.batchSizeMsg ∧
    "Request body must contain at least one entry" ≠ Worker.batchSizeMsg := by
  refine ⟨rfl, rfl, ?_, by decide, by decide, by decide⟩
  intro es h
  have hne : es.length ≠ 0 := by omega
  simp [Worker.handleUpload, hne, h]

/-- C4 (witness): a 101-entry batch hits the size guard. -/
theorem c4_structural_guards_witness :
    Worker.handleUpload testParse testNow
      (.arr (List.replicate 101 badEntry)) [] =
      (Worker.mkErr 400 Worker.batchSizeMsg, []) :=
  (c4_structural_guards testParse testNow []).2.2.1
    (List.replicate 101 badEntry) (by simp [Worker.MAX_BATCH_SIZE])

/-- C5 (counterexample): the V3 validator accepts an entry whose
`ping_results` element has empty-string `id` and `name` and an
out-of-range numeric sub-field — element contents are never inspected. -/
theorem c5_elements_not_validated_counterexample :
    WorkerV3.isValidEntry testParse testNow (.obj c5Raw) = true ∧
    c5Raw.ping_results = .arr [c5Elem] ∧
    c5Elem.id = .jstr "" ∧
    c5Elem.name = .jstr "" ∧
    c5Elem.packet_loss_percent = .jnum (.val (-1)) := by
  refine ⟨by decide, by decide, rfl, rfl, rfl⟩

/-- C5 (amended): the V3 validator requires each of the four result fields
to be an array, but never inspects the elements: replacing the elements of
the result arrays (by arbitrary ones, e.g. lacking non-empty `id`/`name` or
with out-of-range numerics) never changes the verdict, while a non-array
result field makes the entry invalid. -/
theorem c5_arrays_required_elements_ignored (parse : String → Option Int)
    (now : Int) (e : WorkerV3.RawEntry)
    (pl cl ml dl : List WorkerV3.EndpointResult) :
    (WorkerV3.isValidEntry parse now (.obj { e with
        ping_results := .arr pl, curl_results := .arr cl,
        mtr_results := .arr ml, dns_results := .arr dl }) =
     WorkerV3.isValidEntry parse now (.obj { e with
        ping_results := .arr [], curl_results := .arr [],
        mtr_results := .arr [], dns_results := .arr [] })) ∧
    (∀ a x y z, WorkerV3.isValidEntry parse now (.obj { e with
        ping_results := .nonArr a, curl_results := x,
        mtr_results := y, dns_results := z }) = false) ∧
    (∀ a x y z, WorkerV3.isValidEntry parse now (.obj { e with
        ping_results := x, curl_results := .nonArr a,
        mtr_results := y, dns_results := z }) = false) ∧
    (∀ a x y z, WorkerV3.isValidEntry parse now (.obj { e with
        ping_results := x, curl_results := y,
        mtr_results := .nonArr a, dns_results := z }) = false) ∧
    (∀ a x y z, WorkerV3.isValidEntry parse now (.obj { e with
        ping_results := x, curl_results := y,
        mtr_results := z, dns_results := .nonArr a }) = false) := by
  refine ⟨by simp [WorkerV3.isValidEntry, WorkerV3.isArr], ?_, ?_, ?_, ?_⟩ <;>
    intro a x y z <;> simp [WorkerV3.isValidEntry, WorkerV3.isArr]

/-- C6 (counterexample): an entry with `curl.us_dlsdemo.dns_lookup_s = -3`
(a field the spec declares `≥ 0`) passes validation, the upload succeeds
with 200, and the out-of-range value is stored as-is. -/
theorem c6_curl_negative_value_stored :
    Worker.isValidEntry testParse testNow (.obj c6Raw) = some true ∧
    (Worker.handleUpload testParse testNow (.arr [.obj c6Raw]) []).1.status = 200 ∧
    ((Worker.handleUpload testParse testNow (.arr [.obj c6Raw]) []).2.map
        Worker.Row.curl_us_dns_lookup_s) = [.jnum (.val (-3))] := by
  refine ⟨by decide, by decide, by decide⟩

/-- C6 (amended): range bounds are enforced for ping results — a
`packet_loss_percent` that is a number outside `[0, 100]` or an `rtt_ms`
statistic that is a negative number makes `isValidPingResult` fail, which
makes the containing entry invalid and (when validation completes on the
batch) causes a 400 rejection of the whole batch with the store unchanged,
so the value is neither stored nor clamped. (Bounds on other fields —
`networkquality`, `speedtest`, curl and dns timings — are not enforced by
validation, see the counterexample.) -/
theorem c6_ping_range_enforced (parse : String → Option Int) (now : Int) :
    (∀ (host : JAtom) (rtt : Worker.RttVal) (q : Rat), (q < 0 ∨ 100 < q) →
      Worker.isValidPingResult (.obj host (.jnum (.val q)) rtt) = false) ∧
    (∀ (host pl mn av mx sd : JAtom) (q : Rat), q < 0 →
      (mn = JAtom.jnum (.val q) ∨ av = JAtom.jnum (.val q) ∨
       mx = JAtom.jnum (.val q) ∨ sd = JAtom.jnum (.val q)) →
      Worker.isValidPingResult (.obj host pl (.obj mn av mx sd)) = false) ∧
    (∀ (r : Worker.RawEntry) (cf g : Worker.PingVal), r.ping = .obj cf g →
      (Worker.isValidPingResult cf = false ∨
       Worker.isValidPingResult g = false) →
      Worker.isValidEntry parse now (.obj r) = some false) ∧
    (∀ (es : List Worker.EntryVal) (store : Worker.Store) e, e ∈ es →
      Worker.isValidEntry parse now e = some false →
      (∀ x ∈ es, Worker.isValidEntry parse now x ≠ none) →
      (Worker.handleUpload parse now (.arr es) store).1.status = 400 ∧
      (Worker.handleUpload parse now (.arr es) store).2 = store) := by
  refine ⟨?_, ?_, ?_, ?_⟩
  · intro host rtt q hq
    have hnum : isValidNumber (.jnum (.val q)) (some 0) (some 100) = false := by
      rcases hq with h | h
      · simp [isValidNumber, show ¬(0:Rat) ≤ q from not_le.mpr h]
      · simp [isValidNumber, show ¬q ≤ (100:Rat) from not_le.mpr h]
    simp [Worker.isValidPingResult, hnum]
  · intro host pl mn av mx sd q hq hdisj
    have hnum : isValidNumber (.jnum (.val q)) (some 0) none = false := by
      simp [isValidNumber, show ¬(0:Rat) ≤ q from not_le.mpr hq]
    have hrtt : Worker.isValidRttStats (.obj mn av mx sd) = false := by
      rcases hdisj with h | h | h | h <;> subst h <;>
        simp [Worker.isValidRttStats, hnum]
    simp [Worker.isValidPingResult, hrtt]
  · intro r cf g hping hbad
    have hchk : Worker.pingPairChk r.ping = some false := by
      rw [hping]
      rcases hbad with h | h <;> simp [Worker.pingPairChk, h]
    cases hts : r.timestamp with
    | jundef => simp [Worker.isValidEntry, hts]
    | jnull => simp [Worker.isValidEntry, hts]
    | jnum n => simp [Worker.isValidEntry, hts]
    | jbool b => simp [Worker.isValidEntry, hts]
    | jstr s => simp [Worker.isValidEntry, hts, hchk]
  · intro es store e he hbad hnc
    have h := Worker.handleUpload_invalid parse now es store hnc ⟨e, he, hbad⟩
    exact ⟨h.1, h.2.1⟩

/-- C6 (witness for the amended theorem). -/
theorem c6_ping_range_enforced_witness :
    Worker.isValidPingResult
      (.obj (.jstr "1.1.1.1") (.jnum (.val 150)) (.prim .jnull)) = false ∧
    Worker.isValidPingResult
      (.obj (.jstr "1.1.1.1") .jnull
        (.obj (.jnum (.val (-1))) .jnull .jnull .jnull)) = false ∧
    Worker.isValidEntry testParse testNow (.obj c6PingBadRaw) = some false ∧
    (Worker.handleUpload testParse testNow
        (.arr [.obj c6PingBadRaw]) []).1.status = 400 ∧
    (Worker.handleUpload testParse testNow
        (.arr [.obj c6PingBadRaw]) []).2 = [] :=
  have h := c6_ping_range_enforced testParse testNow
  have hv : Worker.isValidEntry testParse testNow (.obj c6PingBadRaw) = some false :=
    h.2.2.1 c6PingBadRaw
      (.obj (.jstr "1.1.1.1") (.jnum (.val 150)) (.prim .jnull))
      (.obj (.jstr "8.8.8.8") .jnull (.prim .jnull)) (by decide)
      (Or.inl (h.1 (.jstr "1.1.1.1") (.prim .jnull) 150 (by norm_num)))
  have hb := h.2.2.2 [.obj c6PingBadRaw] [] (.obj c6PingBadRaw)
    (by decide) hv (by decide)
  ⟨h.1 (.jstr "1.1.1.1") (.prim .jnull) 150 (by norm_num),
   h.2.1 (.jstr "1.1.1.1") .jnull (.jnum (.val (-1))) .jnull .jnull .jnull
     (-1) (by norm_num) (Or.inl rfl),
   hv, hb.1, hb.2⟩

/-- C7: the spec §8 scenario `networkquality.download_mbps = -5` does not
yield a 400 — the entry passes `isValidEntry` (which never inspects the
`networkquality` numerics), the statements bind successfully, and the
request fails only at the store's CHECK constraint, surfacing as the
generic 500 `Database operation failed`; the entry is not persisted. -/
theorem c7_negative_download_mbps_no_400 :
    Worker.isValidEntry testParse testNow (.obj c7Raw) = some true ∧
    (Worker.bindAll [.obj c7Raw]).isSome ∧
    Worker.dbBatch ((Worker.bindAll [.obj c7Raw]).getD []) [] =
      .error .checkViolation ∧
    Worker.handleUpload testParse testNow (.arr [.obj c7Raw]) [] =
      (Worker.mkErr 500 "Database operation failed", []) := by
  refine ⟨by decide, by decide, by rfl, by decide⟩

/-- C8 (counterexample): `?limit=` supplies an empty-string limit value,
which does not parse to a number, yet the handler treats it as omitted
(falsy) and answers 200 with the default limit instead of 400. -/
theorem c8_empty_limit_not_rejected :
    Worker.parseIntJS "" = none ∧
    Worker.handleGetLogs (some "") [] =
      { status := 200, rows := [], error := none } ∧
    (Worker.handleGetLogs (some "") []).status ≠ 400 := by
  refine ⟨rfl, rfl, by decide⟩

/-- C8 (amended): an omitted limit gives the default 1000; a supplied
value that parses is clamped into `[1, 10000]` (never rejected); a
non-empty value that does not parse yields a 400; and an empty-string
value is treated like an omitted parameter (200, default limit), not
rejected. -/
theorem c8_limit_clamping (store : Worker.Store) :
    Worker.handleGetLogs none store =
      { status := 200, rows := Worker.queryLogs store 1000, error := none } ∧
    (∀ (s : String) (n : Int), Worker.parseIntJS s = some n →
      Worker.handleGetLogs (some s) store =
        { status := 200,
          rows := Worker.queryLogs store (min (max n 1) 10000).toNat,
          error := none } ∧
      1 ≤ min (max n 1) (10000 : Int) ∧ min (max n 1) (10000 : Int) ≤ 10000) ∧
    (∀ s : String, s ≠ "" → Worker.parseIntJS s = none →
      Worker.handleGetLogs (some s) store =
        { status := 400, rows := [],
          error := some "Invalid limit parameter, must be a number" }) ∧
    Worker.handleGetLogs (some "") store =
      { status := 200, rows := Worker.queryLogs store 1000, error := none } := by
  refine ⟨rfl, ?_, ?_, rfl⟩
  · intro s n h
    have hs : s ≠ "" := by
      intro he
      subst he
      exact Option.noConfusion ((show Worker.parseIntJS "" = none from rfl) ▸ h)
    refine ⟨by simp [Worker.handleGetLogs, hs, h, Worker.MAX_QUERY_LIMIT], ?_, ?_⟩
    · exact le_min (le_max_right n 1) (by norm_num)
    · exact min_le_right _ _
  · intro s hs h
    simp [Worker.handleGetLogs, hs, h]

/-- C8 (witness for the amended theorem). -/
theorem c8_limit_clamping_witness :
    Worker.handleGetLogs (some "999999") [] =
      { status := 200, rows := [], error := none } ∧
    Worker.handleGetLogs (some "abc") [] =
      { status := 400, rows := [],
        error := some "Invalid limit parameter, must be a number" } :=
  have h := c8_limit_clamping []
  ⟨(h.2.1 "999999" 999999 (by decide)).1, h.2.2.1 "abc" (by decide) (by decide)⟩

/-! ## Sorting lemmas for the query path -/

theorem charListLt_iff : ∀ as bs : List Char,
    Worker.charListLt as bs = true ↔ as < bs := by
  intro as
  induction as with
  | nil =>
      intro bs
      cases bs with
      | nil =>
          simp only [Worker.charListLt]
          constructor
          · intro h; exact absurd h (by simp)
          · intro h; nomatch h
      | cons b bs =>
          simp only [Worker.charListLt, true_iff]
          exact List.Lex.nil
  | cons a as ih =>
      intro bs
      cases bs with
      | nil =>
          simp only [Worker.charListLt]
          constructor
          · intro h; exact absurd h (by simp)
          · intro h; nomatch h
      | cons b bs =>
          simp only [Worker.charListLt]
          by_cases h1 : a < b
          · simp only [if_pos h1, true_iff]
            exact List.Lex.rel h1
          · by_cases h2 : b < a
            · simp only [if_neg h1, if_pos h2, Bool.false_eq_true, false_iff]
              intro h
              cases h with
              | cons _ => exact lt_irrefl _ h2
              | rel hab => exact absurd hab h1
            · have hab : a = b := le_antisymm (not_lt.mp h2) (not_lt.mp h1)
              subst hab
              simp only [if_neg h1, if_neg h2, ih bs]
              exact (List.Lex.cons_iff).symm

theorem strLt_iff (a b : String) : Worker.strLt a b = true ↔ a < b := by
  rw [String.lt_iff_toList_lt]
  exact charListLt_iff a.data b.data

theorem insertRowDesc_perm (r : Worker.Row) :
    ∀ l, (Worker.insertRowDesc r l).Perm (r :: l) := by
  intro l
  induction l with
  | nil => exact List.Perm.refl _
  | cons x xs ih =>
      by_cases h : Worker.strLt x.timestamp r.timestamp = true
      · simp [Worker.insertRowDesc, h]
      · simp only [Worker.insertRowDesc, if_neg h]
        exact (List.Perm.cons x ih).trans (List.Perm.swap r x xs)

theorem mem_insertRowDesc {y r : Worker.Row} {l : List Worker.Row} :
    y ∈ Worker.insertRowDesc r l ↔ y = r ∨ y ∈ l := by
  rw [(insertRowDesc_perm r l).mem_iff, List.mem_cons]

theorem sortRowsDesc_perm : ∀ l : Worker.Store,
    (Worker.sortRowsDesc l).Perm l := by
  intro l
  induction l with
  | nil => exact List.Perm.refl _
  | cons x xs ih =>
      exact ((insertRowDesc_perm x (Worker.sortRowsDesc xs)).trans
        (List.Perm.cons x ih))

theorem insertRowDesc_sorted (r : Worker.Row) :
    ∀ l, l.Pairwise (fun a b => b.timestamp ≤ a.timestamp) →
      (Worker.insertRowDesc r l).Pairwise
        (fun a b => b.timestamp ≤ a.timestamp) := by
  intro l
  induction l with
  | nil => intro _; simp [Worker.insertRowDesc]
  | cons x xs ih =>
      intro hp
      rw [List.pairwise_cons] at hp
      obtain ⟨hx, hxs⟩ := hp
      by_cases h : Worker.strLt x.timestamp r.timestamp = true
      · have hlt : x.timestamp < r.timestamp := (strLt_iff _ _).mp h
        simp only [Worker.insertRowDesc, if_pos h]
        rw [List.pairwise_cons]
        refine ⟨?_, ?_⟩
        · intro b hb
          rcases List.mem_cons.mp hb with hb | hb
          · subst hb; exact le_of_lt hlt
          · exact le_trans (hx b hb) (le_of_lt hlt)
        · rw [List.pairwise_cons]
          exact ⟨hx, hxs⟩
      · have hnlt : ¬x.timestamp < r.timestamp :=
          fun hh => h ((strLt_iff _ _).mpr hh)
        simp only [Worker.insertRowDesc, if_neg h]
        rw [List.pairwise_cons]
        refine ⟨?_, ih hxs⟩
        intro b hb
        rcases mem_insertRowDesc.mp hb with hb | hb
        · subst hb; exact not_lt.mp hnlt
        · exact hx b hb

theorem sortRowsDesc_sorted : ∀ l : Worker.Store,
    (Worker.sortRowsDesc l).Pairwise (fun a b => b.timestamp ≤ a.timestamp) := by
  intro l
  induction l with
  | nil => simp [Worker.sortRowsDesc]
  | cons x xs ih => exact insertRowDesc_sorted x _ ih

theorem sortRowsDesc_strict (l : Worker.Store)
    (h : l.Pairwise (fun a b => a.timestamp ≠ b.timestamp)) :
    (Worker.sortRowsDesc l).Pairwise
      (fun a b => b.timestamp < a.timestamp) := by
  have hne : (Worker.sortRowsDesc l).Pairwise
      (fun a b => a.timestamp ≠ b.timestamp) :=
    ((sortRowsDesc_perm l).pairwise_iff (fun hab => Ne.symm hab)).mpr h
  exact ((sortRowsDesc_sorted l).and hne).imp
    (fun hab => lt_of_le_of_ne hab.1 (Ne.symm hab.2))

theorem mem_take_of_lt :
    ∀ (l : List Worker.Row) (n : Nat) (A B : Worker.Row),
      l.Pairwise (fun a b => b.timestamp < a.timestamp) →
      A ∈ l → B ∈ l.take n → B.timestamp < A.timestamp → A ∈ l.take n := by
  intro l
  induction l with
  | nil => intro n A B _ hA; exact absurd hA (List.not_mem_nil A)
  | cons x xs ih =>
      intro n A B hp hA hB hlt
      cases n with
      | zero => simp at hB
      | succ m =>
          rw [List.take_succ_cons] at hB ⊢
          rw [List.pairwise_cons] at hp
          obtain ⟨hx, hxs⟩ := hp
          rcases List.mem_cons.mp hA with hAx | hAxs
          · subst hAx; exact List.mem_cons_self _ _
          · rcases List.mem_cons.mp hB with hBx | hBm
            · exfalso
              have hABlt : A.timestamp < B.timestamp := hBx ▸ hx A hAxs
              exact absurd hlt (not_lt.mpr (le_of_lt hABlt))
            · have hBxs : B ∈ xs := (List.take_sublist m xs).subset hBm
              exact List.mem_cons_of_mem x (ih m A B hxs hAxs hBm hlt)

theorem pair_sublist_of_mem :
    ∀ (l : List Worker.Row) (A B : Worker.Row),
      l.Pairwise (fun a b => b.timestamp < a.timestamp) →
      A ∈ l → B ∈ l → B.timestamp < A.timestamp → [A, B].Sublist l := by
  intro l
  induction l with
  | nil => intro A B _ hA; exact absurd hA (List.not_mem_nil A)
  | cons x xs ih =>
      intro A B hp hA hB hlt
      rw [List.pairwise_cons] at hp
      obtain ⟨hx, hxs⟩ := hp
      rcases List.mem_cons.mp hA with hAx | hAxs
      · rcases List.mem_cons.mp hB with hBx | hBxs
        · exfalso; rw [hAx, hBx] at hlt; exact lt_irrefl _ hlt
        · subst hAx
          exact List.Sublist.cons₂ A (List.singleton_sublist.mpr hBxs)
      · rcases List.mem_cons.mp hB with hBx | hBxs
        · exfalso
          have hABlt : A.timestamp < B.timestamp := hBx ▸ hx A hAxs
          exact absurd hlt (not_lt.mpr (le_of_lt hABlt))
        · exact List.Sublist.cons x (ih A B hxs hAxs hBxs hlt)

theorem queryLogs_ordering (store : Worker.Store) (n : Nat)
    (h : store.Pairwise (fun a b => a.timestamp ≠ b.timestamp)) :
    (Worker.queryLogs store n).Pairwise
      (fun a b => b.timestamp < a.timestamp) ∧
    (∀ A B : Worker.Row, A ∈ store → B ∈ store →
      B.timestamp < A.timestamp → B ∈ Worker.queryLogs store n →
      [A, B].Sublist (Worker.queryLogs store n)) := by
  have hsorted := sortRowsDesc_strict store h
  have htake : (Worker.queryLogs store n).Pairwise
      (fun a b => b.timestamp < a.timestamp) :=
    List.Pairwise.sublist (List.take_sublist n _) hsorted
  refine ⟨htake, ?_⟩
  intro A B hA hB hlt hBq
  have hAs : A ∈ Worker.sortRowsDesc store :=
    (sortRowsDesc_perm store).mem_iff.mpr hA
  have hAq : A ∈ Worker.queryLogs store n :=
    mem_take_of_lt _ n A B hsorted hAs hBq hlt
  exact pair_sublist_of_mem _ A B htake hAq hBq hlt

/-- C9: for a store with pairwise-distinct timestamps, the rows returned
by `GET /api/logs` are strictly descending by timestamp, and any persisted
record A with a greater timestamp than a returned record B appears in the
response before B. -/
theorem c9_logs_strictly_descending (limitParam : Option String)
    (store : Worker.Store)
    (h : store.Pairwise (fun a b => a.timestamp ≠ b.timestamp)) :
    (Worker.handleGetLogs limitParam store).rows.Pairwise
      (fun a b => b.timestamp < a.timestamp) ∧
    (∀ A B : Worker.Row, A ∈ store → B ∈ store →
      B.timestamp < A.timestamp →
      B ∈ (Worker.handleGetLogs limitParam store).rows →
      [A, B].Sublist (Worker.handleGetLogs limitParam store).rows) := by
  cases limitParam with
  | none => exact queryLogs_ordering store _ h
  | some s =>
      by_cases hs : s = ""
      · subst hs
        exact queryLogs_ordering store _ h
      · cases hp : Worker.parseIntJS s with
        | none =>
            have hrows : (Worker.handleGetLogs (some s) store).rows = [] := by
              simp [Worker.handleGetLogs, hs, hp]
            rw [hrows]
            refine ⟨List.Pairwise.nil, ?_⟩
            intro A B _ _ _ hB
            exact absurd hB (List.not_mem_nil B)
        | some n =>
            have hrows : (Worker.handleGetLogs (some s) store).rows =
                Worker.queryLogs store (min (max n 1) Worker.MAX_QUERY_LIMIT).toNat := by
              simp [Worker.handleGetLogs, hs, hp]
            rw [hrows]
            exact queryLogs_ordering store _ h

/-- C9 (witness): on a concrete two-row store the later row is returned
first. -/
theorem c9_logs_strictly_descending_witness :
    (Worker.handleGetLogs none c9Store).rows.Pairwise
      (fun a b => b.timestamp < a.timestamp) ∧
    [mkRowTs "2025-03-01", mkRowTs "2025-01-01"].Sublist
      (Worker.handleGetLogs none c9Store).rows :=
  have h := c9_logs_strictly_descending none c9Store (by decide)
  ⟨h.1, h.2 (mkRowTs "2025-03-01") (mkRowTs "2025-01-01")
    (by decide) (by decide)
    ((strLt_iff "2025-01-01" "2025-03-01").mp (by decide)) (by decide)⟩

/-! ## Intra-batch duplicates -/

theorem optStep {α β : Type} {x : Option α} {f : α → Option β} {r : β}
    (h : (x >>= f) = some r) : ∃ v, x = some v ∧ f v = some r := by
  cases x with
  | none => nomatch h
  | some v => exact ⟨v, rfl, h⟩

theorem bindRow_timestamp :
    ∀ (e : Worker.EntryVal) (r : Worker.Row),
      Worker.bindRow e = some r → r.timestamp = Worker.tsOf e := by
  intro e r h
  cases e with
  | nonObj a => simp [Worker.bindRow] at h
  | obj re =>
      cases hts : re.timestamp with
      | jundef => simp only [Worker.bindRow, hts] at h; nomatch h
      | jnull => simp only [Worker.bindRow, hts] at h; nomatch h
      | jnum n => simp only [Worker.bindRow, hts] at h; nomatch h
      | jbool b => simp only [Worker.bindRow, hts] at h; nomatch h
      | jstr s =>
          simp only [Worker.bindRow, hts] at h
          obtain ⟨⟨nqd, nqu, nqr⟩, h1, h⟩ := optStep h
          cases hping : re.ping with
          | prim a => rw [hping] at h; nomatch h
          | obj pcf pg =>
          rw [hping] at h
          obtain ⟨y1, hy1, h⟩ := optStep h
          injection hy1 with hy1
          subst hy1
          obtain ⟨⟨cfh, cfl, cfa, cfmin, cfmax, cfsd⟩, h3, h⟩ := optStep h
          obtain ⟨⟨gh, gl, ga, gmin, gmax, gsd⟩, h4, h⟩ := optStep h
          cases hcurl : re.curl with
          | prim a => rw [hcurl] at h; nomatch h
          | obj cus ceu =>
          rw [hcurl] at h
          obtain ⟨y2, hy2, h⟩ := optStep h
          injection hy2 with hy2
          subst hy2
          obtain ⟨⟨usu, usd, ust, ush⟩, h6, h⟩ := optStep h
          obtain ⟨⟨euu, eud, eut, euh⟩, h7, h⟩ := optStep h
          obtain ⟨⟨std, stu, stp, stl, stc⟩, h8, h⟩ := optStep h
          cases hdns : re.dns with
          | prim a => rw [hdns] at h; nomatch h
          | obj dcfv dgv =>
          rw [hdns] at h
          obtain ⟨y3, hy3, h⟩ := optStep h
          injection hy3 with hy3
          subst hy3
          obtain ⟨dcf, h10, h⟩ := optStep h
          obtain ⟨dg, h11, h⟩ := optStep h
          cases hmtr : re.mtr with
          | prim a => rw [hmtr] at h; nomatch h
          | obj mcfv mgv =>
          rw [hmtr] at h
          obtain ⟨y4, hy4, h⟩ := optStep h
          injection hy4 with hy4
          subst hy4
          obtain ⟨mcf, h13, h⟩ := optStep h
          obtain ⟨mg, h14, h⟩ := optStep h
          injection h with h
          subst h
          simp [Worker.tsOf, hts]

/-- C10: the duplicate check only compares batch timestamps against the
store. A batch of two valid entries sharing a fresh timestamp passes the
duplicate check (duplicate count 0), the batch insert then violates the
store's UNIQUE timestamp constraint, and the request is answered with the
generic 500 `Database operation failed` — not a 409 — with the store
unchanged. -/
theorem c10_intra_batch_duplicate_500 (parse : String → Option Int)
    (now : Int) (e1 e2 : Worker.EntryVal) (r1 r2 : Worker.Row)
    (store : Worker.Store)
    (hv1 : Worker.isValidEntry parse now e1 = some true)
    (hv2 : Worker.isValidEntry parse now e2 = some true)
    (hts : Worker.tsOf e1 = Worker.tsOf e2)
    (hfresh : Worker.tsOf e1 ∉ Worker.storeTimestamps store)
    (hb1 : Worker.bindRow e1 = some r1)
    (hb2 : Worker.bindRow e2 = some r2)
    (hok1 : Worker.rowOk r1 = true) :
    ([e1, e2].filter (fun e =>
      decide (Worker.tsOf e ∈ Worker.storeTimestamps store))).length = 0 ∧
    Worker.dbBatch [r1, r2] store = .error .uniqueViolation ∧
    Worker.handleUpload parse now (.arr [e1, e2]) store =
      (Worker.mkErr 500 "Database operation failed", store) := by
  have ht1 := bindRow_timestamp e1 r1 hb1
  have ht2 := bindRow_timestamp e2 r2 hb2
  have hfresh2 : Worker.tsOf e2 ∉ Worker.storeTimestamps store := hts ▸ hfresh
  have hfilter : ([e1, e2].filter (fun e =>
      decide (Worker.tsOf e ∈ Worker.storeTimestamps store))) = [] := by
    rw [List.filter_eq_nil_iff]
    intro a ha
    rcases List.mem_cons.mp ha with rfl | ha2
    · simpa using hfresh
    · rcases List.mem_cons.mp ha2 with rfl | ha3
      · simpa using hfresh2
      · exact absurd ha3 (List.not_mem_nil a)
  have hdb : Worker.dbBatch [r1, r2] store = .error .uniqueViolation := by
    have h1 : r1.timestamp ∉ Worker.storeTimestamps store := by
      rw [ht1]; exact hfresh
    have h2 : r2.timestamp ∈ Worker.storeTimestamps (store ++ [r1]) := by
      rw [ht2, ← hts, Worker.storeTimestamps, List.map_append]
      exact List.mem_append_right _ (by simp [ht1])
    simp [Worker.dbBatch, Worker.dbInsert, h1, hok1, h2]
  refine ⟨by simp [hfilter], hdb, ?_⟩
  have hf : Worker.filterValid parse now [e1, e2] = some [e1, e2] := by
    refine Worker.filterValid_all parse now [e1, e2] ?_
    intro x hx
    rcases List.mem_cons.mp hx with rfl | hx2
    · exact hv1
    · rcases List.mem_cons.mp hx2 with rfl | hx3
      · exact hv2
      · exact absurd hx3 (List.not_mem_nil x)
  have hba : Worker.bindAll [e1, e2] = some [r1, r2] := by
    simp [Worker.bindAll, hb1, hb2]
  simp [Worker.handleUpload, hf, hfilter, hba, hdb, Worker.mkErr,
    Worker.MAX_BATCH_SIZE]

/-- C10 (witness): submitting `wEntry` twice in one batch against an empty
store. -/
theorem c10_intra_batch_duplicate_500_witness :
    Worker.handleUpload testParse testNow (.arr [wEntry, wEntry]) [] =
      (Worker.mkErr 500 "Database operation failed", []) ∧
    Worker.dbBatch [wRow, wRow] [] = .error .uniqueViolation :=
  have h := c10_intra_batch_duplicate_500 testParse testNow wEntry wEntry
    wRow wRow [] (by decide) (by decide) rfl (by decide) (by decide)
    (by decide) (by decide)
  ⟨h.2.2, h.2.1⟩
